import Mathlib

/-!
Shallow embedding of the chaser scheduling and escalation-tier dispatch core
of the Chaser-Agent repository (backend/server.js and backend/scheduler.js),
together with proofs of the specified properties.

Times are modelled as integers (milliseconds since the epoch), record ids as
naturals, and the three database tables (tasks, chaser_queue, chaser_logs)
as lists of records. Supabase update/select calls are modelled as list
operations with the same filtering semantics.
-/

namespace ChaserAgent

/- Times are `Int` milliseconds since the epoch, as in JavaScript
`Date.getTime()`; record ids (UUIDs in the schema) are `Nat`. -/

/-- Status column of a `chaser_queue` row (schema default is `pending`;
the code writes `pending`, `triggered`, `sent`, `failed`, `cancelled`). -/
inductive QStatus
  | pending
  | triggered
  | sent
  | failed
  | cancelled
deriving DecidableEq, Repr

/-- Status column of a `tasks` row (`pending` or `completed`). -/
inductive TStatus
  | pending
  | completed
deriving DecidableEq, Repr

/-- A row of the `tasks` table (the columns the embedded core reads or writes). -/
structure Task where
  id : Nat
  title : String
  assignee_email : String
  due_date : Int
  status : TStatus
  total_chasers_sent : Nat
  last_chaser_sent_at : Option Int
  updated_at : Int
deriving DecidableEq, Repr

/-- A row of the `chaser_queue` table. -/
structure QueueEntry where
  id : Nat
  task_id : Nat
  scheduled_at : Int
  status : QStatus
  recipient_email : String
  message_subject : String
  message_body : String
  escalation_tier : Nat
  sent_at : Option Int
  last_attempt_at : Option Int
deriving DecidableEq, Repr

/-- A row of the `chaser_logs` table. -/
structure DeliveryLog where
  task_id : Nat
  queue_id : Nat
  sent_at : Int
  status : QStatus
  recipient_email : String
  message_subject : String
  message_body : String
  boltic_execution_id : Option String
deriving DecidableEq, Repr

/-- The persistent store: the three tables. -/
structure DB where
  tasks : List Task
  queue : List QueueEntry
  logs : List DeliveryLog
deriving DecidableEq, Repr

/-- Error responses surfaced by the API handlers (HTTP 400 / 404). -/
inductive ApiError
  | badRequest
  | notFound
deriving DecidableEq, Repr

/-- Supabase `update(fields).eq(col, v)` semantics: apply `f` to every row
satisfying `p`, leave all other rows unchanged. -/
def updateWhere {α : Type} (p : α → Bool) (f : α → α) (l : List α) : List α :=
  l.map (fun x => if p x then f x else x)

/-- `select().eq('id', qid).single()` on `chaser_queue`. -/
def findEntry (queue : List QueueEntry) (qid : Nat) : Option QueueEntry :=
  queue.find? (fun e => decide (e.id = qid))

/-- `select().eq('id', tid).single()` on `tasks`. -/
def getTask (tasks : List Task) (tid : Nat) : Option Task :=
  tasks.find? (fun t => decide (t.id = tid))

/-! ## Escalation planner (POST /api/tasks, server.js lines 167-209) -/

/-- One row of the fixed escalation-tier table. -/
structure TierConfig where
  tier : Nat
  hoursBeforeDue : Nat
  name : String
deriving DecidableEq, Repr

/-- The fixed 4-tier table: 24h, 12h, 4h, 1h before the due date. -/
def escalationTiers : List TierConfig :=
  [⟨1, 24, "24h reminder"⟩, ⟨2, 12, "12h reminder"⟩, ⟨3, 4, "4h urgent"⟩,
   ⟨4, 1, "1h critical"⟩]

/-- One hour in milliseconds. -/
def hourMs : Int := 60 * 60 * 1000

/-- One minute in milliseconds. -/
def minuteMs : Int := 60 * 1000

/-- A chaser row pushed by the planner before the database assigns ids:
the fields of the objects pushed onto `scheduledChasers` in server.js. -/
structure ChaserDraft where
  task_id : Nat
  scheduled_at : Int
  recipient_email : String
  message_subject : String
  message_body : String
  status : QStatus
  escalation_tier : Nat
deriving DecidableEq, Repr

/-- The draft pushed for one qualifying tier (server.js lines 186-194). -/
def tierDraft (taskId : Nat) (email title : String) (due : Int)
    (tc : TierConfig) : ChaserDraft :=
  { task_id := taskId
    scheduled_at := due - (tc.hoursBeforeDue : Int) * hourMs
    recipient_email := email
    message_subject :=
      "Tier " ++ toString tc.tier ++ ": " ++ title ++ " - " ++ tc.name
    message_body := "Escalation tier " ++ toString tc.tier ++ " reminder"
    status := QStatus.pending
    escalation_tier := tc.tier }

/-- The fallback draft pushed when no tier instant is in the future
(server.js lines 198-209): scheduled one minute from now, tier 4. -/
def fallbackDraft (taskId : Nat) (email title : String) (now : Int) : ChaserDraft :=
  { task_id := taskId
    scheduled_at := now + minuteMs
    recipient_email := email
    message_subject := "URGENT: " ++ title ++ " - Due very soon!"
    message_body := "Immediate reminder - task due very soon"
    status := QStatus.pending
    escalation_tier := 4 }

/-- The escalation planner: the loop over `escalationTiers` keeping the
tiers whose instant `due - offset` is strictly after `now`, plus the
fallback entry when that loop produced nothing (server.js lines 179-209). -/
def planChasers (taskId : Nat) (email title : String) (due now : Int) :
    List ChaserDraft :=
  let scheduledChasers := escalationTiers.filterMap (fun tc =>
    if due - (tc.hoursBeforeDue : Int) * hourMs > now then
      some (tierDraft taskId email title due tc)
    else
      none)
  if scheduledChasers.isEmpty then [fallbackDraft taskId email title now]
  else scheduledChasers

/-! ## Queue dispatcher (scheduler.js, processPendingChasers) -/

/-- Ordering used by the dispatch query: ascending `scheduled_at`. -/
def schedLE (a b : QueueEntry) : Prop := a.scheduled_at ≤ b.scheduled_at

instance : DecidableRel schedLE := fun a b => Int.decLe a.scheduled_at b.scheduled_at

instance : IsTotal QueueEntry schedLE :=
  ⟨fun a b => Int.le_total a.scheduled_at b.scheduled_at⟩

instance : IsTrans QueueEntry schedLE :=
  ⟨fun _ _ _ hab hbc => Int.le_trans hab hbc⟩

/-- The dispatch-cycle selection query (scheduler.js lines 207-228):
`status = pending`, `scheduled_at <= now`, ordered ascending by
`scheduled_at`, `limit 5`. -/
def selectDue (queue : List QueueEntry) (now : Int) : List QueueEntry :=
  (List.insertionSort schedLE
    (queue.filter (fun e =>
      decide (e.status = QStatus.pending) && decide (e.scheduled_at ≤ now)))).take 5

/-- The joined-task completion check (scheduler.js line 245:
`chaser.tasks?.status === 'completed'`). -/
def taskIsCompleted (tasks : List Task) (tid : Nat) : Bool :=
  match getTask tasks tid with
  | some t => decide (t.status = TStatus.completed)
  | none => false

/-- One iteration of the dispatch loop body for a selected chaser
(scheduler.js lines 243-402). `accepted qid` is the outcome of the
external webhook call for that queue id (`true`: the sink accepted the
request; `false`: timeout / network error / non-2xx). The second
component of the state accumulates the queue ids for which the external
dispatch call was actually made. -/
def processOne (now : Int) (accepted : Nat → Bool) (st : DB × List Nat)
    (chaser : QueueEntry) : DB × List Nat :=
  let db := st.1
  if taskIsCompleted db.tasks chaser.task_id then
    ({ db with
        queue := updateWhere (fun e => decide (e.id = chaser.id))
          (fun e => { e with status := QStatus.cancelled }) db.queue },
     st.2)
  else if accepted chaser.id then
    ({ db with
        queue := updateWhere (fun e => decide (e.id = chaser.id))
          (fun e => { e with status := QStatus.triggered,
                             last_attempt_at := some now }) db.queue },
     st.2 ++ [chaser.id])
  else
    ({ db with
        queue := updateWhere (fun e => decide (e.id = chaser.id))
          (fun e => { e with last_attempt_at := some now }) db.queue },
     st.2 ++ [chaser.id])

/-- One dispatch cycle (scheduler.js `processPendingChasers`): select the
due pending batch and process it sequentially. Returns the new store and
the list of queue ids for which the external sink was invoked. -/
def processPendingChasers (db : DB) (now : Int) (accepted : Nat → Bool) :
    DB × List Nat :=
  (selectDue db.queue now).foldl (processOne now accepted) (db, [])

/-! ## Delivery callback handlers (server.js webhooks) -/

/-- Modelled from the spec: the body of the `increment_chaser_count` stored
procedure invoked by RPC at server.js line 660 is not part of the
repository sources; the spec defines `incrementTaskChaserCount(taskId,
sentAt)` as an atomic increment of `total_chasers_sent`, so it is modelled
here as adding one to the counter of every task row with the given id. -/
def increment_chaser_count (tasks : List Task) (tid : Nat) : List Task :=
  updateWhere (fun t => decide (t.id = tid))
    (fun t => { t with total_chasers_sent := t.total_chasers_sent + 1 }) tasks

/-- POST /api/webhooks/boltic/chaser-sent (server.js lines 594-685):
requires the queue entry to exist (404 otherwise); sets its status to
`sent` with `sent_at = sent_at ?? now`; appends one `chaser_logs` row with
status `sent`; sets the owning task `last_chaser_sent_at` / `updated_at`
and increments its `total_chasers_sent`. -/
def onDispatchSucceeded (db : DB) (qid : Nat) (sentAt : Option Int)
    (execId : Option String) (now : Int) : Except ApiError DB :=
  match findEntry db.queue qid with
  | none => Except.error ApiError.notFound
  | some e =>
    let sentTimestamp := sentAt.getD now
    let queue' := updateWhere (fun q => decide (q.id = qid))
      (fun q => { q with status := QStatus.sent,
                         sent_at := some sentTimestamp }) db.queue
    let newLog : DeliveryLog :=
      { task_id := e.task_id
        queue_id := qid
        sent_at := sentTimestamp
        status := QStatus.sent
        recipient_email := e.recipient_email
        message_subject := e.message_subject
        message_body := e.message_body
        boltic_execution_id := execId }
    let tasks1 := updateWhere (fun t => decide (t.id = e.task_id))
      (fun t => { t with last_chaser_sent_at := some sentTimestamp,
                         updated_at := now }) db.tasks
    Except.ok
      { tasks := increment_chaser_count tasks1 e.task_id
        queue := queue'
        logs := db.logs ++ [newLog] }

/-- POST /api/webhooks/boltic/chaser-failed (server.js lines 691-751):
requires the queue entry to exist (404 otherwise); sets its status to
`failed` with `last_attempt_at = now`; appends one `chaser_logs` row with
status `failed` whose body is the stored body with the error message
appended; does not touch the `tasks` table. -/
def onDispatchFailed (db : DB) (qid : Nat) (errMsg : Option String)
    (now : Int) : Except ApiError DB :=
  match findEntry db.queue qid with
  | none => Except.error ApiError.notFound
  | some e =>
    let queue' := updateWhere (fun q => decide (q.id = qid))
      (fun q => { q with status := QStatus.failed,
                         last_attempt_at := some now }) db.queue
    let newLog : DeliveryLog :=
      { task_id := e.task_id
        queue_id := qid
        sent_at := now
        status := QStatus.failed
        recipient_email := e.recipient_email
        message_subject := e.message_subject
        message_body := e.message_body ++ "\n\n[ERROR: "
          ++ errMsg.getD "Unknown error" ++ "]"
        boltic_execution_id := none }
    Except.ok { db with queue := queue', logs := db.logs ++ [newLog] }

/-! ## Task completion (PATCH /api/tasks/:id with status = completed,
server.js lines 330-429) -/

/-- Marking a task completed: requires the task to exist (404 otherwise);
sets its status to `completed` (and `updated_at`); then transitions that
task's queue entries that are currently `pending` to `cancelled`
(server.js lines 371-383). The best-effort calendar-delete webhook has no
effect on the store and is not modelled. -/
def markCompleted (db : DB) (tid : Nat) (now : Int) : Except ApiError DB :=
  match getTask db.tasks tid with
  | none => Except.error ApiError.notFound
  | some _ =>
    let tasks' := updateWhere (fun t => decide (t.id = tid))
      (fun t => { t with status := TStatus.completed, updated_at := now })
      db.tasks
    let queue' := updateWhere
      (fun e => decide (e.task_id = tid) && decide (e.status = QStatus.pending))
      (fun e => { e with status := QStatus.cancelled }) db.queue
    Except.ok { db with tasks := tasks', queue := queue' }

/-! ## Derived observations -/

/-- The `total_chasers_sent` counter of a task, if the task exists. -/
def chaserCount (tasks : List Task) (tid : Nat) : Option Nat :=
  (getTask tasks tid).map (fun t => t.total_chasers_sent)

/-- The status of a queue entry, if it exists. -/
def entryStatus (queue : List QueueEntry) (qid : Nat) : Option QStatus :=
  (findEntry queue qid).map (fun e => e.status)

/-- The owning task of a queue entry, if the entry exists. -/
def ownerOf (queue : List QueueEntry) (qid : Nat) : Option Nat :=
  (findEntry queue qid).map (fun e => e.task_id)

/-! ## Generic lemmas about keyed lookups and updates -/

theorem find?_key_updateWhere {α : Type} (key : α → Nat) (f : α → α)
    (hf : ∀ x, key (f x) = key x) (l : List α) (qid kid : Nat) :
    (updateWhere (fun x => decide (key x = kid)) f l).find?
        (fun x => decide (key x = qid))
      = (l.find? (fun x => decide (key x = qid))).map
          (fun x => if key x = kid then f x else x) := by
  unfold updateWhere
  rw [List.find?_map]
  have hcomp : ((fun x => decide (key x = qid)) ∘
      (fun x => if decide (key x = kid) = true then f x else x))
      = fun x => decide (key x = qid) := by
    funext x
    by_cases h : key x = kid <;> simp [h, hf]
  rw [hcomp]
  congr 1
  funext x
  by_cases h : key x = kid <;> simp [h]

theorem find?_key_updateWhere_self {α : Type} (key : α → Nat) (f : α → α)
    (hf : ∀ x, key (f x) = key x) (l : List α) (qid : Nat) :
    (updateWhere (fun x => decide (key x = qid)) f l).find?
        (fun x => decide (key x = qid))
      = (l.find? (fun x => decide (key x = qid))).map f := by
  rw [find?_key_updateWhere key f hf l qid qid]
  cases h : l.find? (fun x => decide (key x = qid)) with
  | none => rfl
  | some a =>
    have ha := List.find?_some h
    simp only [decide_eq_true_eq] at ha
    simp [ha]

theorem find?_key_updateWhere_ne {α : Type} (key : α → Nat) (f : α → α)
    (hf : ∀ x, key (f x) = key x) (l : List α) (qid kid : Nat)
    (hne : qid ≠ kid) :
    (updateWhere (fun x => decide (key x = kid)) f l).find?
        (fun x => decide (key x = qid))
      = l.find? (fun x => decide (key x = qid)) := by
  rw [find?_key_updateWhere key f hf l qid kid]
  cases h : l.find? (fun x => decide (key x = qid)) with
  | none => rfl
  | some a =>
    have ha := List.find?_some h
    simp only [decide_eq_true_eq] at ha
    simp [ha, hne]

theorem find?_key_of_nodup {α : Type} (key : α → Nat) {l : List α}
    (h : (l.map key).Nodup) {x : α} (hx : x ∈ l) :
    l.find? (fun y => decide (key y = key x)) = some x := by
  induction l with
  | nil => cases hx
  | cons a l ih =>
    rw [List.map_cons, List.nodup_cons] at h
    rcases List.mem_cons.mp hx with rfl | hxl
    · simp [List.find?]
    · have hne : key a ≠ key x := by
        intro hk
        exact h.1 (hk ▸ List.mem_map_of_mem key hxl)
      rw [List.find?_cons_of_neg _ (by simp [hne])]
      exact ih h.2 hxl

/-- Two rows of a key-Nodup table with the same key are the same row. -/
theorem eq_of_key_eq_of_nodup {α : Type} (key : α → Nat) {l : List α}
    (h : (l.map key).Nodup) {x y : α} (hx : x ∈ l) (hy : y ∈ l)
    (hxy : key x = key y) : x = y :=
  List.inj_on_of_nodup_map h hx hy hxy

theorem findEntry_updateWhere_self (queue : List QueueEntry) (qid : Nat)
    (f : QueueEntry → QueueEntry) (hf : ∀ e, (f e).id = e.id) :
    findEntry (updateWhere (fun e => decide (e.id = qid)) f queue) qid
      = (findEntry queue qid).map f := by
  unfold findEntry
  exact find?_key_updateWhere_self (fun e => e.id) f hf queue qid

theorem findEntry_updateWhere_ne (queue : List QueueEntry) (qid kid : Nat)
    (f : QueueEntry → QueueEntry) (hf : ∀ e, (f e).id = e.id)
    (hne : qid ≠ kid) :
    findEntry (updateWhere (fun e => decide (e.id = kid)) f queue) qid
      = findEntry queue qid := by
  unfold findEntry
  exact find?_key_updateWhere_ne (fun e => e.id) f hf queue qid kid hne

theorem getTask_updateWhere_self (tasks : List Task) (tid : Nat)
    (f : Task → Task) (hf : ∀ t, (f t).id = t.id) :
    getTask (updateWhere (fun t => decide (t.id = tid)) f tasks) tid
      = (getTask tasks tid).map f := by
  unfold getTask
  exact find?_key_updateWhere_self (fun t => t.id) f hf tasks tid

theorem getTask_updateWhere_ne (tasks : List Task) (tid kid : Nat)
    (f : Task → Task) (hf : ∀ t, (f t).id = t.id) (hne : tid ≠ kid) :
    getTask (updateWhere (fun t => decide (t.id = kid)) f tasks) tid
      = getTask tasks tid := by
  unfold getTask
  exact find?_key_updateWhere_ne (fun t => t.id) f hf tasks tid kid hne

theorem findEntry_eq_of_nodup {queue : List QueueEntry}
    (h : (queue.map (fun e => e.id)).Nodup) {e : QueueEntry}
    (he : e ∈ queue) : findEntry queue e.id = some e := by
  unfold findEntry
  exact find?_key_of_nodup (fun e => e.id) h he

theorem planner_case_all (taskId : Nat) (email title : String)
    (due now : Int)
    (h24 : due - ((24:Nat) : Int) * hourMs > now)
    (h12 : due - ((12:Nat) : Int) * hourMs > now)
    (h4 : due - ((4:Nat) : Int) * hourMs > now)
    (h1 : due - ((1:Nat) : Int) * hourMs > now) :
    planChasers taskId email title due now =
      [tierDraft taskId email title due ⟨1, 24, "24h reminder"⟩,
       tierDraft taskId email title due ⟨2, 12, "12h reminder"⟩,
       tierDraft taskId email title due ⟨3, 4, "4h urgent"⟩,
       tierDraft taskId email title due ⟨4, 1, "1h critical"⟩] := by
  simp only [planChasers, escalationTiers, List.filterMap_cons, List.filterMap_nil]
  rw [if_pos h24, if_pos h12, if_pos h4, if_pos h1]
  rfl

theorem planner_case_12 (taskId : Nat) (email title : String)
    (due now : Int)
    (h24 : ¬ (due - ((24:Nat) : Int) * hourMs > now))
    (h12 : due - ((12:Nat) : Int) * hourMs > now)
    (h4 : due - ((4:Nat) : Int) * hourMs > now)
    (h1 : due - ((1:Nat) : Int) * hourMs > now) :
    planChasers taskId email title due now =
      [tierDraft taskId email title due ⟨2, 12, "12h reminder"⟩,
       tierDraft taskId email title due ⟨3, 4, "4h urgent"⟩,
       tierDraft taskId email title due ⟨4, 1, "1h critical"⟩] := by
  simp only [planChasers, escalationTiers, List.filterMap_cons, List.filterMap_nil]
  rw [if_neg h24, if_pos h12, if_pos h4, if_pos h1]
  rfl

theorem planner_case_4 (taskId : Nat) (email title : String)
    (due now : Int)
    (h24 : ¬ (due - ((24:Nat) : Int) * hourMs > now))
    (h12 : ¬ (due - ((12:Nat) : Int) * hourMs > now))
    (h4 : due - ((4:Nat) : Int) * hourMs > now)
    (h1 : due - ((1:Nat) : Int) * hourMs > now) :
    planChasers taskId email title due now =
      [tierDraft taskId email title due ⟨3, 4, "4h urgent"⟩,
       tierDraft taskId email title due ⟨4, 1, "1h critical"⟩] := by
  simp only [planChasers, escalationTiers, List.filterMap_cons, List.filterMap_nil]
  rw [if_neg h24, if_neg h12, if_pos h4, if_pos h1]
  rfl

theorem planner_case_1 (taskId : Nat) (email title : String)
    (due now : Int)
    (h24 : ¬ (due - ((24:Nat) : Int) * hourMs > now))
    (h12 : ¬ (due - ((12:Nat) : Int) * hourMs > now))
    (h4 : ¬ (due - ((4:Nat) : Int) * hourMs > now))
    (h1 : due - ((1:Nat) : Int) * hourMs > now) :
    planChasers taskId email title due now =
      [tierDraft taskId email title due ⟨4, 1, "1h critical"⟩] := by
  simp only [planChasers, escalationTiers, List.filterMap_cons, List.filterMap_nil]
  rw [if_neg h24, if_neg h12, if_neg h4, if_pos h1]
  rfl

/-- Counterexample to claim C2 as stated: for a task already overdue
(due 1 second before the reference time) no tier instant is strictly in
the future, yet the planner emits a tier-4 entry (the fallback), and its
scheduled instant lies after the due instant — contradicting both the
"emits entries for no other tier" part and the "every emitted scheduledAt
is strictly before the due instant" part of the unrestricted claim. -/
theorem planner_tier_table_counterexample :
    (∀ tc ∈ escalationTiers,
      ¬ ((-1000 : Int) - (tc.hoursBeforeDue : Int) * hourMs > 0))
    ∧ (planChasers 1 "a@b.c" "Report" (-1000) 0).map
        (fun d => d.escalation_tier) = [4]
    ∧ ∀ d ∈ planChasers 1 "a@b.c" "Report" (-1000) 0,
        ¬ (d.scheduled_at < -1000) := by
  decide

/-- Claim C2 (amended): at task creation, provided the task is due strictly
more than 1 hour in the future (so at least one tier qualifies and the
fallback branch is not taken), the planner emits exactly one pending
QueueEntry at `due - offset` for every tier of the fixed table whose
instant `due - offset` is strictly after the reference time, and nothing
for any other tier; every emitted `scheduledAt` lies strictly between the
reference time and the due instant, and at least one entry is emitted. -/
theorem planner_tier_table_spec (taskId : Nat) (email title : String)
    (due now : Int) (h : now + hourMs < due) :
    (∀ tc ∈ escalationTiers, due - (tc.hoursBeforeDue : Int) * hourMs > now →
        (planChasers taskId email title due now).filter
          (fun d => decide (d.escalation_tier = tc.tier))
          = [tierDraft taskId email title due tc])
    ∧ (∀ d ∈ planChasers taskId email title due now,
        ∃ tc ∈ escalationTiers,
          d = tierDraft taskId email title due tc
            ∧ due - (tc.hoursBeforeDue : Int) * hourMs > now)
    ∧ (∀ d ∈ planChasers taskId email title due now,
        d.status = QStatus.pending ∧ now < d.scheduled_at ∧ d.scheduled_at < due)
    ∧ planChasers taskId email title due now ≠ [] := by
  have hMs : hourMs = 3600000 := rfl
  rw [hMs] at h
  have h1 : due - ((1:Nat) : Int) * hourMs > now := by
    rw [hMs]; push_cast; omega
  by_cases h24 : due - ((24:Nat) : Int) * hourMs > now
  · rw [planner_case_all taskId email title due now h24
      (by rw [hMs] at *; push_cast at *; omega)
      (by rw [hMs] at *; push_cast at *; omega) h1]
    refine ⟨?_, ?_, ?_, by simp⟩
    · intro tc htc hcond
      fin_cases htc <;> simp [tierDraft]
    · intro d hd
      simp only [List.mem_cons, List.not_mem_nil, or_false] at hd
      rcases hd with rfl | rfl | rfl | rfl
      · exact ⟨⟨1, 24, "24h reminder"⟩, by simp [escalationTiers], rfl, h24⟩
      · refine ⟨⟨2, 12, "12h reminder"⟩, by simp [escalationTiers], rfl, ?_⟩
        rw [hMs] at *; push_cast at *; omega
      · refine ⟨⟨3, 4, "4h urgent"⟩, by simp [escalationTiers], rfl, ?_⟩
        rw [hMs] at *; push_cast at *; omega
      · exact ⟨⟨4, 1, "1h critical"⟩, by simp [escalationTiers], rfl, h1⟩
    · intro d hd
      simp only [List.mem_cons, List.not_mem_nil, or_false] at hd
      rw [hMs] at h24 h1
      push_cast at h24 h1
      rcases hd with rfl | rfl | rfl | rfl <;>
        refine ⟨rfl, ?_, ?_⟩ <;> simp [tierDraft, hMs] <;> omega
  · by_cases h12 : due - ((12:Nat) : Int) * hourMs > now
    · rw [planner_case_12 taskId email title due now h24 h12
        (by rw [hMs] at *; push_cast at *; omega) h1]
      refine ⟨?_, ?_, ?_, by simp⟩
      · intro tc htc hcond
        fin_cases htc
        · exact absurd hcond h24
        · simp [tierDraft]
        · simp [tierDraft]
        · simp [tierDraft]
      · intro d hd
        simp only [List.mem_cons, List.not_mem_nil, or_false] at hd
        rcases hd with rfl | rfl | rfl
        · exact ⟨⟨2, 12, "12h reminder"⟩, by simp [escalationTiers], rfl, h12⟩
        · refine ⟨⟨3, 4, "4h urgent"⟩, by simp [escalationTiers], rfl, ?_⟩
          rw [hMs] at *; push_cast at *; omega
        · exact ⟨⟨4, 1, "1h critical"⟩, by simp [escalationTiers], rfl, h1⟩
      · intro d hd
        simp only [List.mem_cons, List.not_mem_nil, or_false] at hd
        rw [hMs] at h12 h1
        push_cast at h12 h1
        rcases hd with rfl | rfl | rfl <;>
          refine ⟨rfl, ?_, ?_⟩ <;> simp [tierDraft, hMs] <;> omega
    · by_cases h4 : due - ((4:Nat) : Int) * hourMs > now
      · rw [planner_case_4 taskId email title due now h24 h12 h4 h1]
        refine ⟨?_, ?_, ?_, by simp⟩
        · intro tc htc hcond
          fin_cases htc
          · exact absurd hcond h24
          · exact absurd hcond h12
          · simp [tierDraft]
          · simp [tierDraft]
        · intro d hd
          simp only [List.mem_cons, List.not_mem_nil, or_false] at hd
          rcases hd with rfl | rfl
          · exact ⟨⟨3, 4, "4h urgent"⟩, by simp [escalationTiers], rfl, h4⟩
          · exact ⟨⟨4, 1, "1h critical"⟩, by simp [escalationTiers], rfl, h1⟩
        · intro d hd
          simp only [List.mem_cons, List.not_mem_nil, or_false] at hd
          rw [hMs] at h4 h1
          push_cast at h4 h1
          rcases hd with rfl | rfl <;>
            refine ⟨rfl, ?_, ?_⟩ <;> simp [tierDraft, hMs] <;> omega
      · rw [planner_case_1 taskId email title due now h24 h12 h4 h1]
        refine ⟨?_, ?_, ?_, by simp⟩
        · intro tc htc hcond
          fin_cases htc
          · exact absurd hcond h24
          · exact absurd hcond h12
          · exact absurd hcond h4
          · simp [tierDraft]
        · intro d hd
          simp only [List.mem_cons, List.not_mem_nil, or_false] at hd
          rcases hd with rfl
          exact ⟨⟨4, 1, "1h critical"⟩, by simp [escalationTiers], rfl, h1⟩
        · intro d hd
          simp only [List.mem_cons, List.not_mem_nil, or_false] at hd
          rw [hMs] at h1
          push_cast at h1
          rcases hd with rfl
          refine ⟨rfl, ?_, ?_⟩ <;> simp only [tierDraft, hMs] <;> omega

/-- Claim C3: if no tier instant `due - offset` is strictly in the future
at creation time, the planner emits exactly one fallback QueueEntry, in
pending state, at escalation tier 4, scheduled at the reference time plus
one minute. -/
theorem planner_fallback_spec (taskId : Nat) (email title : String)
    (due now : Int)
    (h : ∀ tc ∈ escalationTiers, ¬ (due - (tc.hoursBeforeDue : Int) * hourMs > now)) :
    planChasers taskId email title due now = [fallbackDraft taskId email title now]
    ∧ (fallbackDraft taskId email title now).status = QStatus.pending
    ∧ (fallbackDraft taskId email title now).escalation_tier = 4
    ∧ (fallbackDraft taskId email title now).scheduled_at = now + minuteMs := by
  have h24 := h ⟨1, 24, "24h reminder"⟩ (by simp [escalationTiers])
  have h12 := h ⟨2, 12, "12h reminder"⟩ (by simp [escalationTiers])
  have h4 := h ⟨3, 4, "4h urgent"⟩ (by simp [escalationTiers])
  have h1 := h ⟨4, 1, "1h critical"⟩ (by simp [escalationTiers])
  refine ⟨?_, rfl, rfl, rfl⟩
  simp only [planChasers, escalationTiers, List.filterMap_cons, List.filterMap_nil]
  rw [if_neg h24, if_neg h12, if_neg h4, if_neg h1]
  rfl

/-- Witness for C3: a task due in 20 minutes gets only the fallback entry. -/
theorem planner_fallback_witness :
    planChasers 1 "a@b.c" "Report" 1200000 0
      = [fallbackDraft 1 "a@b.c" "Report" 0] :=
  (planner_fallback_spec 1 "a@b.c" "Report" 1200000 0 (by decide)).1

/-- Claim C4: every dispatch cycle selects at most 5 queue entries, all
with status pending and `scheduled_at` at most the current time and all
drawn from the queue, ordered ascending by `scheduled_at`; hence no entry
with another status or a future `scheduled_at` is ever selected. -/
theorem dispatch_selection_spec (queue : List QueueEntry) (now : Int) :
    (selectDue queue now).length ≤ 5
    ∧ (∀ e ∈ selectDue queue now,
        e.status = QStatus.pending ∧ e.scheduled_at ≤ now ∧ e ∈ queue)
    ∧ List.Sorted schedLE (selectDue queue now) := by
  refine ⟨?_, ?_, ?_⟩
  · unfold selectDue
    exact List.length_take_le 5 _
  · intro e he
    unfold selectDue at he
    have h1 := List.take_subset 5 _ he
    have h2 := (List.perm_insertionSort schedLE _).subset h1
    have h3 := List.mem_filter.mp h2
    have h4 := h3.2
    simp only [Bool.and_eq_true, decide_eq_true_eq] at h4
    exact ⟨h4.1, h4.2, h3.1⟩
  · exact (List.sorted_insertionSort schedLE _).sublist (List.take_sublist 5 _)

/-- Witness for C2: a task due 30 hours out yields a nonempty plan. -/
theorem planner_tier_table_witness :
    planChasers 1 "a@b.c" "Report" 108000000 0 ≠ [] :=
  (planner_tier_table_spec 1 "a@b.c" "Report" 108000000 0 (by decide)).2.2.2

/-! ## Success-callback lemmas -/

theorem findEntry_updateWhere (queue : List QueueEntry) (kid : Nat)
    (f : QueueEntry → QueueEntry) (hf : ∀ e, (f e).id = e.id) (q : Nat) :
    findEntry (updateWhere (fun e => decide (e.id = kid)) f queue) q
      = (findEntry queue q).map (fun e => if e.id = kid then f e else e) := by
  unfold findEntry
  exact find?_key_updateWhere (fun e => e.id) f hf queue q kid

theorem ownerOf_updateWhere (queue : List QueueEntry) (kid : Nat)
    (f : QueueEntry → QueueEntry) (hid : ∀ e, (f e).id = e.id)
    (htid : ∀ e, (f e).task_id = e.task_id) (q : Nat) :
    ownerOf (updateWhere (fun e => decide (e.id = kid)) f queue) q
      = ownerOf queue q := by
  unfold ownerOf
  rw [findEntry_updateWhere queue kid f hid q]
  cases findEntry queue q with
  | none => rfl
  | some e =>
    by_cases h : e.id = kid <;> simp [h, htid]

theorem getTask_increment_ne (tasks : List Task) (tid t' : Nat)
    (h : t' ≠ tid) :
    getTask (increment_chaser_count tasks tid) t' = getTask tasks t' :=
  getTask_updateWhere_ne tasks t' tid _ (fun _ => rfl) h

theorem chaserCount_increment_self (tasks : List Task) (tid : Nat) :
    chaserCount (increment_chaser_count tasks tid) tid
      = (chaserCount tasks tid).map (fun n => n + 1) := by
  unfold chaserCount increment_chaser_count
  rw [getTask_updateWhere_self tasks tid
    (fun t => { t with total_chasers_sent := t.total_chasers_sent + 1 })
    (fun _ => rfl)]
  cases getTask tasks tid <;> rfl

structure SuccessOp where
  qid : Nat
  sentAt : Option Int
  execId : Option String
  now : Int

/-- Apply one success callback, ignoring a NotFound response (the store is
unchanged in that case). -/
def applySuccess (db : DB) (op : SuccessOp) : DB :=
  match onDispatchSucceeded db op.qid op.sentAt op.execId op.now with
  | Except.ok db1 => db1
  | Except.error _ => db

/-- Apply a sequence of success callbacks (one interleaving of concurrent
callbacks, each handler step being atomic). -/
def applySuccesses (db : DB) (ops : List SuccessOp) : DB :=
  ops.foldl applySuccess db

theorem applySuccess_ownerOf (db : DB) (op : SuccessOp) (q : Nat) :
    ownerOf (applySuccess db op).queue q = ownerOf db.queue q := by
  cases hfind : findEntry db.queue op.qid with
  | none => simp only [applySuccess, onDispatchSucceeded, hfind]
  | some e =>
    simp only [applySuccess, onDispatchSucceeded, hfind]
    exact ownerOf_updateWhere db.queue op.qid
      (fun q => { q with status := QStatus.sent,
                         sent_at := some (op.sentAt.getD op.now) })
      (fun _ => rfl) (fun _ => rfl) q

theorem applySuccess_chaserCount_ne (db : DB) (op : SuccessOp) (t : Nat)
    (h : ownerOf db.queue op.qid ≠ some t) :
    chaserCount (applySuccess db op).tasks t = chaserCount db.tasks t := by
  cases hfind : findEntry db.queue op.qid with
  | none => simp only [applySuccess, onDispatchSucceeded, hfind]
  | some e =>
    have hown : ownerOf db.queue op.qid = some e.task_id := by
      unfold ownerOf
      rw [hfind]
      rfl
    have hne : t ≠ e.task_id := fun hEq => h (by rw [hown, hEq])
    simp only [applySuccess, onDispatchSucceeded, hfind]
    unfold chaserCount
    rw [getTask_increment_ne _ e.task_id t hne,
      getTask_updateWhere_ne db.tasks t e.task_id
        (fun t => { t with last_chaser_sent_at := some (op.sentAt.getD op.now),
                           updated_at := op.now })
        (fun _ => rfl) hne]

theorem applySuccesses_chaserCount (t : Nat) :
    ∀ (ops : List SuccessOp) (db : DB),
      (∀ op ∈ ops, ownerOf db.queue op.qid ≠ some t) →
      chaserCount (applySuccesses db ops).tasks t = chaserCount db.tasks t := by
  intro ops
  induction ops with
  | nil => intro db _; rfl
  | cons op ops ih =>
    intro db h
    show chaserCount (applySuccesses (applySuccess db op) ops).tasks t = _
    rw [ih (applySuccess db op) ?_, applySuccess_chaserCount_ne db op t
      (h op (List.mem_cons_self op ops))]
    intro op2 h2
    rw [applySuccess_ownerOf db op op2.qid]
    exact h op2 (List.mem_cons_of_mem op h2)

/-- Claim C1: a delivery-success callback for an existing queue entry sets
that entry to `sent` with `sent_at` the provided timestamp (or `now`),
appends exactly one delivery-log row with status `sent`, and increments the
owning task counter `total_chasers_sent` by exactly one, leaving every
other task untouched; processing further callbacks for entries owned by
other tasks (any interleaving of concurrent unrelated callbacks) leaves
this task counter unchanged. -/
theorem chaserSent_spec (db : DB) (qid : Nat) (sentAt : Option Int)
    (execId : Option String) (now : Int) (e : QueueEntry)
    (he : findEntry db.queue qid = some e) :
    ∃ db', onDispatchSucceeded db qid sentAt execId now = Except.ok db'
      ∧ findEntry db'.queue qid
          = some { e with status := QStatus.sent, sent_at := some (sentAt.getD now) }
      ∧ db'.logs = db.logs ++
          [{ task_id := e.task_id, queue_id := qid, sent_at := sentAt.getD now,
             status := QStatus.sent, recipient_email := e.recipient_email,
             message_subject := e.message_subject, message_body := e.message_body,
             boltic_execution_id := execId }]
      ∧ chaserCount db'.tasks e.task_id
          = (chaserCount db.tasks e.task_id).map (fun n => n + 1)
      ∧ (∀ tid, tid ≠ e.task_id → getTask db'.tasks tid = getTask db.tasks tid)
      ∧ (∀ ops : List SuccessOp,
          (∀ op ∈ ops, ownerOf db'.queue op.qid ≠ some e.task_id) →
          chaserCount (applySuccesses db' ops).tasks e.task_id
            = chaserCount db'.tasks e.task_id) := by
  have heq : onDispatchSucceeded db qid sentAt execId now = Except.ok
      { tasks := increment_chaser_count
          (updateWhere (fun t => decide (t.id = e.task_id))
            (fun t => { t with last_chaser_sent_at := some (sentAt.getD now),
                               updated_at := now }) db.tasks) e.task_id
        queue := updateWhere (fun q => decide (q.id = qid))
          (fun q => { q with status := QStatus.sent,
                             sent_at := some (sentAt.getD now) }) db.queue
        logs := db.logs ++
          [{ task_id := e.task_id, queue_id := qid, sent_at := sentAt.getD now,
             status := QStatus.sent, recipient_email := e.recipient_email,
             message_subject := e.message_subject, message_body := e.message_body,
             boltic_execution_id := execId }] } := by
    unfold onDispatchSucceeded
    rw [he]
  refine ⟨_, heq, ?_, ?_, ?_, ?_, ?_⟩
  · show findEntry (updateWhere _ _ db.queue) qid = _
    rw [findEntry_updateWhere_self db.queue qid
      (fun q => { q with status := QStatus.sent,
                         sent_at := some (sentAt.getD now) })
      (fun _ => rfl), he]
    rfl
  · rfl
  · show chaserCount (increment_chaser_count _ e.task_id) e.task_id = _
    rw [chaserCount_increment_self]
    unfold chaserCount
    rw [getTask_updateWhere_self db.tasks e.task_id
      (fun t => { t with last_chaser_sent_at := some (sentAt.getD now),
                         updated_at := now })
      (fun _ => rfl)]
    cases getTask db.tasks e.task_id <;> rfl
  · intro tid htid
    show getTask (increment_chaser_count _ e.task_id) tid = _
    rw [getTask_increment_ne _ e.task_id tid htid,
      getTask_updateWhere_ne db.tasks tid e.task_id
        (fun t => { t with last_chaser_sent_at := some (sentAt.getD now),
                           updated_at := now })
        (fun _ => rfl) htid]
  · intro ops hops
    exact applySuccesses_chaserCount e.task_id ops _ hops

/-! ## Example store used by the witnesses -/

def exTask1 : Task :=
  { id := 10, title := "Report", assignee_email := "a@b.c",
    due_date := 7200000, status := TStatus.pending, total_chasers_sent := 2,
    last_chaser_sent_at := none, updated_at := 0 }

def exTask2 : Task :=
  { id := 11, title := "Deck", assignee_email := "d@b.c",
    due_date := 9000000, status := TStatus.completed, total_chasers_sent := 0,
    last_chaser_sent_at := none, updated_at := 0 }

def exEntry1 : QueueEntry :=
  { id := 1, task_id := 10, scheduled_at := 0, status := QStatus.pending,
    recipient_email := "a@b.c", message_subject := "s1", message_body := "b1",
    escalation_tier := 4, sent_at := none, last_attempt_at := none }

def exEntry2 : QueueEntry :=
  { id := 2, task_id := 11, scheduled_at := 5, status := QStatus.pending,
    recipient_email := "d@b.c", message_subject := "s2", message_body := "b2",
    escalation_tier := 3, sent_at := none, last_attempt_at := none }

def exEntry3 : QueueEntry :=
  { id := 3, task_id := 10, scheduled_at := 9, status := QStatus.triggered,
    recipient_email := "a@b.c", message_subject := "s3", message_body := "b3",
    escalation_tier := 2, sent_at := none, last_attempt_at := none }

def exDB : DB :=
  { tasks := [exTask1, exTask2], queue := [exEntry1, exEntry2, exEntry3],
    logs := [] }

/-- Witness for C1: a success callback for entry 3 (owned by task 10, which
has 2 chasers sent) yields a store where task 10 has 3 chasers sent. -/
theorem chaserSent_witness :
    ∃ db', onDispatchSucceeded exDB 3 (some 42) (some "ex5") 100 = Except.ok db'
      ∧ chaserCount db'.tasks 10 = some 3 := by
  obtain ⟨db', heq, hfind, hlogs, hcount, hother, hfold⟩ :=
    chaserSent_spec exDB 3 (some 42) (some "ex5") 100 exEntry3 (by decide)
  have h10 : exEntry3.task_id = 10 := rfl
  rw [h10] at hcount
  refine ⟨db', heq, ?_⟩
  rw [hcount]
  rfl

/-- Claim C7: a delivery-failure callback for an existing queue entry sets
that entry to `failed`, appends exactly one delivery-log row with status
`failed` whose body is the stored body with the error message appended,
and leaves the tasks table (in particular all counters) unchanged; for a
missing queue id it reports NotFound and returns no modified store. -/
theorem chaserFailed_spec (db : DB) (qid : Nat) (errMsg : Option String)
    (now : Int) :
    (∀ e, findEntry db.queue qid = some e →
      ∃ db', onDispatchFailed db qid errMsg now = Except.ok db'
        ∧ findEntry db'.queue qid
            = some { e with status := QStatus.failed, last_attempt_at := some now }
        ∧ db'.logs = db.logs ++
            [{ task_id := e.task_id, queue_id := qid, sent_at := now,
               status := QStatus.failed, recipient_email := e.recipient_email,
               message_subject := e.message_subject,
               message_body := e.message_body ++ "\n\n[ERROR: "
                 ++ errMsg.getD "Unknown error" ++ "]",
               boltic_execution_id := none }]
        ∧ db'.tasks = db.tasks)
    ∧ (findEntry db.queue qid = none →
        onDispatchFailed db qid errMsg now = Except.error ApiError.notFound) := by
  constructor
  · intro e he
    have heq : onDispatchFailed db qid errMsg now = Except.ok
        { db with
            queue := updateWhere (fun q => decide (q.id = qid))
              (fun q => { q with status := QStatus.failed,
                                 last_attempt_at := some now }) db.queue
            logs := db.logs ++
              [{ task_id := e.task_id, queue_id := qid, sent_at := now,
                 status := QStatus.failed, recipient_email := e.recipient_email,
                 message_subject := e.message_subject,
                 message_body := e.message_body ++ "\n\n[ERROR: "
                   ++ errMsg.getD "Unknown error" ++ "]",
                 boltic_execution_id := none }] } := by
      unfold onDispatchFailed
      rw [he]
    refine ⟨_, heq, ?_, rfl, rfl⟩
    rw [show ({ db with
        queue := updateWhere (fun q => decide (q.id = qid))
          (fun q => { q with status := QStatus.failed,
                             last_attempt_at := some now }) db.queue
        logs := db.logs ++
          [{ task_id := e.task_id, queue_id := qid, sent_at := now,
             status := QStatus.failed, recipient_email := e.recipient_email,
             message_subject := e.message_subject,
             message_body := e.message_body ++ "\n\n[ERROR: "
               ++ errMsg.getD "Unknown error" ++ "]",
             boltic_execution_id := none }] } : DB).queue
      = updateWhere (fun q => decide (q.id = qid))
          (fun q => { q with status := QStatus.failed,
                             last_attempt_at := some now }) db.queue from rfl]
    rw [findEntry_updateWhere_self db.queue qid
      (fun q => { q with status := QStatus.failed,
                         last_attempt_at := some now }) (fun _ => rfl), he]
    rfl
  · intro hnone
    unfold onDispatchFailed
    rw [hnone]

/-- Witness for C7: a failure callback for entry 3 leaves the tasks table
unchanged and marks the entry failed. -/
theorem chaserFailed_witness :
    ∃ db', onDispatchFailed exDB 3 (some "boom") 50 = Except.ok db'
      ∧ db'.tasks = exDB.tasks := by
  obtain ⟨db', heq, hfind, hlogs, htasks⟩ :=
    (chaserFailed_spec exDB 3 (some "boom") 50).1 exEntry3 (by decide)
  exact ⟨db', heq, htasks⟩

/-! ## Task-completion lemmas -/

theorem forall2_updateWhere {α : Type} (p : α → Bool) (f : α → α)
    (l : List α) (R : α → α → Prop)
    (h1 : ∀ x, p x = true → R x (f x))
    (h2 : ∀ x, p x = false → R x x) :
    List.Forall₂ R l (updateWhere p f l) := by
  induction l with
  | nil => exact List.Forall₂.nil
  | cons a l ih =>
    refine List.Forall₂.cons ?_ ih
    cases hpa : p a with
    | true => simpa [hpa] using h1 a hpa
    | false => simpa [hpa] using h2 a hpa

theorem updateWhere_idem {α : Type} (p : α → Bool) (f : α → α)
    (h : ∀ x, p x = true → p (f x) = false) (l : List α) :
    updateWhere p f (updateWhere p f l) = updateWhere p f l := by
  unfold updateWhere
  rw [List.map_map]
  have hg : ((fun x => if p x then f x else x) ∘ (fun x => if p x then f x else x))
      = fun x => if p x then f x else x := by
    funext x
    cases hx : p x with
    | true => simp [hx, h x hx]
    | false => simp [hx]
  rw [hg]

/-- Claim C8: marking an existing task completed sets its status to
`completed`, leaves every other task unchanged, transitions exactly that
task's queue entries currently in `pending` state to `cancelled` while
leaving every other queue entry (other statuses, other tasks) unchanged,
and appends no log rows. -/
theorem markCompleted_spec (db : DB) (tid : Nat) (now : Int) (t : Task)
    (ht : getTask db.tasks tid = some t) :
    ∃ db', markCompleted db tid now = Except.ok db'
      ∧ (getTask db'.tasks tid).map (fun x => x.status) = some TStatus.completed
      ∧ (∀ tid2, tid2 ≠ tid → getTask db'.tasks tid2 = getTask db.tasks tid2)
      ∧ List.Forall₂ (fun e e2 =>
          (e.task_id = tid ∧ e.status = QStatus.pending →
            e2 = { e with status := QStatus.cancelled })
          ∧ (¬ (e.task_id = tid ∧ e.status = QStatus.pending) → e2 = e))
          db.queue db'.queue
      ∧ db'.logs = db.logs := by
  have heq : markCompleted db tid now = Except.ok
      { db with
          tasks := updateWhere (fun x => decide (x.id = tid))
            (fun x => { x with status := TStatus.completed, updated_at := now })
            db.tasks
          queue := updateWhere
            (fun e => decide (e.task_id = tid) && decide (e.status = QStatus.pending))
            (fun e => { e with status := QStatus.cancelled }) db.queue } := by
    unfold markCompleted
    rw [ht]
  refine ⟨_, heq, ?_, ?_, ?_, rfl⟩
  · show (getTask (updateWhere _ _ db.tasks) tid).map _ = _
    rw [getTask_updateWhere_self db.tasks tid
      (fun x => { x with status := TStatus.completed, updated_at := now })
      (fun _ => rfl), ht]
    rfl
  · intro tid2 h2
    exact getTask_updateWhere_ne db.tasks tid2 tid
      (fun x => { x with status := TStatus.completed, updated_at := now })
      (fun _ => rfl) h2
  · apply forall2_updateWhere
    · intro x hx
      simp only [Bool.and_eq_true, decide_eq_true_eq] at hx
      exact ⟨fun _ => rfl, fun hc => absurd ⟨hx.1, hx.2⟩ hc⟩
    · intro x hx
      have hnot : ¬ (x.task_id = tid ∧ x.status = QStatus.pending) := by
        intro hc
        simp [hc.1, hc.2] at hx
      exact ⟨fun hc => absurd hc hnot, fun _ => rfl⟩

/-- Witness for C8: completing task 10 in the example store cancels its
pending entry 1, leaves its triggered entry 3 and the other task's entry 2
untouched. -/
theorem markCompleted_witness :
    ∃ db', markCompleted exDB 10 77 = Except.ok db'
      ∧ (getTask db'.tasks 10).map (fun x => x.status) = some TStatus.completed := by
  obtain ⟨db', heq, hstatus, hother, hqueue, hlogs⟩ :=
    markCompleted_spec exDB 10 77 exTask1 (by decide)
  exact ⟨db', heq, hstatus⟩

/-- Claim C9: completing a task is idempotent: a second completion call on
the already-completed task succeeds, cancels no further queue entries,
appends no log rows, and leaves the task status `completed`; in
particular the set of that task's cancelled entries after the second call
equals the set after the first. -/
theorem markCompleted_idempotent (db : DB) (tid : Nat) (now1 now2 : Int)
    (t : Task) (ht : getTask db.tasks tid = some t) :
    ∃ db1, markCompleted db tid now1 = Except.ok db1
      ∧ ∃ db2, markCompleted db1 tid now2 = Except.ok db2
        ∧ db2.queue = db1.queue
        ∧ db2.logs = db1.logs
        ∧ (getTask db2.tasks tid).map (fun x => x.status) = some TStatus.completed := by
  have heq1 : markCompleted db tid now1 = Except.ok
      { db with
          tasks := updateWhere (fun x => decide (x.id = tid))
            (fun x => { x with status := TStatus.completed, updated_at := now1 })
            db.tasks
          queue := updateWhere
            (fun e => decide (e.task_id = tid) && decide (e.status = QStatus.pending))
            (fun e => { e with status := QStatus.cancelled }) db.queue } := by
    unfold markCompleted
    rw [ht]
  refine ⟨_, heq1, ?_⟩
  have ht1 : getTask (updateWhere (fun x => decide (x.id = tid))
      (fun x => { x with status := TStatus.completed, updated_at := now1 })
      db.tasks) tid = some { t with status := TStatus.completed, updated_at := now1 } := by
    rw [getTask_updateWhere_self db.tasks tid
      (fun x => { x with status := TStatus.completed, updated_at := now1 })
      (fun _ => rfl), ht]
    rfl
  have heq2 : markCompleted
      { db with
          tasks := updateWhere (fun x => decide (x.id = tid))
            (fun x => { x with status := TStatus.completed, updated_at := now1 })
            db.tasks
          queue := updateWhere
            (fun e => decide (e.task_id = tid) && decide (e.status = QStatus.pending))
            (fun e => { e with status := QStatus.cancelled }) db.queue }
      tid now2 = Except.ok
      { tasks := updateWhere (fun x => decide (x.id = tid))
          (fun x => { x with status := TStatus.completed, updated_at := now2 })
          (updateWhere (fun x => decide (x.id = tid))
            (fun x => { x with status := TStatus.completed, updated_at := now1 })
            db.tasks)
        queue := updateWhere
          (fun e => decide (e.task_id = tid) && decide (e.status = QStatus.pending))
          (fun e => { e with status := QStatus.cancelled })
          (updateWhere
            (fun e => decide (e.task_id = tid) && decide (e.status = QStatus.pending))
            (fun e => { e with status := QStatus.cancelled }) db.queue)
        logs := db.logs } := by
    unfold markCompleted
    rw [ht1]
  refine ⟨_, heq2, ?_, rfl, ?_⟩
  · show updateWhere _ _ (updateWhere _ _ db.queue) = _
    apply updateWhere_idem
    intro x hx
    simp only [Bool.and_eq_true, decide_eq_true_eq] at hx
    simp [hx.1]
  · show (getTask (updateWhere _ _ _) tid).map _ = _
    rw [getTask_updateWhere_self _ tid
      (fun x => { x with status := TStatus.completed, updated_at := now2 })
      (fun _ => rfl), ht1]
    rfl

/-- Witness for C9: completing task 10 twice in the example store is
accepted both times. -/
theorem markCompleted_idempotent_witness :
    ∃ db1, markCompleted exDB 10 77 = Except.ok db1
      ∧ ∃ db2, markCompleted db1 10 99 = Except.ok db2
        ∧ db2.queue = db1.queue
        ∧ db2.logs = db1.logs
        ∧ (getTask db2.tasks 10).map (fun x => x.status) = some TStatus.completed :=
  markCompleted_idempotent exDB 10 77 99 exTask1 (by decide)

/-! ## Dispatch-cycle lemmas -/

theorem mem_selectDue {queue : List QueueEntry} {now : Int} {e : QueueEntry}
    (he : e ∈ selectDue queue now) :
    e ∈ queue ∧ e.status = QStatus.pending ∧ e.scheduled_at ≤ now := by
  unfold selectDue at he
  have h1 := List.take_subset 5 _ he
  have h2 := (List.perm_insertionSort schedLE _).subset h1
  have h3 := List.mem_filter.mp h2
  have h4 := h3.2
  simp only [Bool.and_eq_true, decide_eq_true_eq] at h4
  exact ⟨h3.1, h4.1, h4.2⟩

theorem selectDue_ids_nodup (queue : List QueueEntry) (now : Int)
    (h : (queue.map (fun e => e.id)).Nodup) :
    ((selectDue queue now).map (fun e => e.id)).Nodup := by
  unfold selectDue
  have hsub : List.Sublist (queue.filter (fun e =>
      decide (e.status = QStatus.pending) && decide (e.scheduled_at ≤ now))) queue :=
    List.filter_sublist queue
  have h1 : ((queue.filter (fun e =>
      decide (e.status = QStatus.pending) && decide (e.scheduled_at ≤ now))).map
        (fun e => e.id)).Nodup :=
    (hsub.map (fun e : QueueEntry => e.id)).nodup h
  have h2 : ((List.insertionSort schedLE (queue.filter (fun e =>
      decide (e.status = QStatus.pending) && decide (e.scheduled_at ≤ now)))).map
        (fun e => e.id)).Nodup :=
    (((List.perm_insertionSort schedLE _).map (fun e : QueueEntry => e.id)).nodup_iff).mpr h1
  exact ((List.take_sublist 5 _).map (fun e : QueueEntry => e.id)).nodup h2

theorem processOne_tasks (now : Int) (accepted : Nat → Bool)
    (st : DB × List Nat) (c : QueueEntry) :
    (processOne now accepted st c).1.tasks = st.1.tasks := by
  unfold processOne
  cases htc : taskIsCompleted st.1.tasks c.task_id with
  | true => simp [htc]
  | false => cases hac : accepted c.id <;> simp [htc, hac]

theorem processOne_logs (now : Int) (accepted : Nat → Bool)
    (st : DB × List Nat) (c : QueueEntry) :
    (processOne now accepted st c).1.logs = st.1.logs := by
  unfold processOne
  cases htc : taskIsCompleted st.1.tasks c.task_id with
  | true => simp [htc]
  | false => cases hac : accepted c.id <;> simp [htc, hac]

theorem foldl_processOne_tasks (now : Int) (accepted : Nat → Bool) :
    ∀ (l : List QueueEntry) (st : DB × List Nat),
      ((l.foldl (processOne now accepted) st).1.tasks = st.1.tasks) := by
  intro l
  induction l with
  | nil => intro st; rfl
  | cons c l ih =>
    intro st
    rw [List.foldl_cons, ih, processOne_tasks]

theorem foldl_processOne_logs (now : Int) (accepted : Nat → Bool) :
    ∀ (l : List QueueEntry) (st : DB × List Nat),
      ((l.foldl (processOne now accepted) st).1.logs = st.1.logs) := by
  intro l
  induction l with
  | nil => intro st; rfl
  | cons c l ih =>
    intro st
    rw [List.foldl_cons, ih, processOne_logs]

theorem processOne_findEntry_ne (now : Int) (accepted : Nat → Bool)
    (st : DB × List Nat) (c : QueueEntry) (q : Nat) (h : q ≠ c.id) :
    findEntry (processOne now accepted st c).1.queue q
      = findEntry st.1.queue q := by
  unfold processOne
  cases htc : taskIsCompleted st.1.tasks c.task_id with
  | true =>
    simp only [htc, if_true]
    exact findEntry_updateWhere_ne st.1.queue q c.id
      (fun e => { e with status := QStatus.cancelled }) (fun _ => rfl) h
  | false =>
    cases hac : accepted c.id with
    | true =>
      simp only [htc, hac, Bool.false_eq_true, if_false, if_true]
      exact findEntry_updateWhere_ne st.1.queue q c.id
        (fun e => { e with status := QStatus.triggered,
                           last_attempt_at := some now }) (fun _ => rfl) h
    | false =>
      simp only [htc, hac, Bool.false_eq_true, if_false]
      exact findEntry_updateWhere_ne st.1.queue q c.id
        (fun e => { e with last_attempt_at := some now }) (fun _ => rfl) h

theorem foldl_findEntry_ne (now : Int) (accepted : Nat → Bool) :
    ∀ (l : List QueueEntry) (st : DB × List Nat) (q : Nat),
      (∀ c ∈ l, q ≠ c.id) →
      findEntry ((l.foldl (processOne now accepted) st).1.queue) q
        = findEntry st.1.queue q := by
  intro l
  induction l with
  | nil => intro st q _; rfl
  | cons c l ih =>
    intro st q h
    rw [List.foldl_cons, ih _ q (fun x hx => h x (List.mem_cons_of_mem c hx)),
      processOne_findEntry_ne now accepted st c q (h c (List.mem_cons_self c l))]

theorem processOne_dispatched (now : Int) (accepted : Nat → Bool)
    (st : DB × List Nat) (c : QueueEntry) :
    (processOne now accepted st c).2
      = if taskIsCompleted st.1.tasks c.task_id then st.2 else st.2 ++ [c.id] := by
  unfold processOne
  cases htc : taskIsCompleted st.1.tasks c.task_id with
  | true => simp [htc]
  | false => cases hac : accepted c.id <;> simp [htc, hac]

theorem foldl_dispatched_mem (now : Int) (accepted : Nat → Bool) :
    ∀ (l : List QueueEntry) (st : DB × List Nat) (q : Nat),
      (q ∈ (l.foldl (processOne now accepted) st).2
        ↔ q ∈ st.2 ∨ ∃ c ∈ l, c.id = q
            ∧ taskIsCompleted st.1.tasks c.task_id = false) := by
  intro l
  induction l with
  | nil => intro st q; simp
  | cons c l ih =>
    intro st q
    rw [List.foldl_cons, ih]
    simp only [processOne_tasks, processOne_dispatched, List.mem_cons]
    cases htc : taskIsCompleted st.1.tasks c.task_id with
    | true =>
      simp only [if_true]
      constructor
      · rintro (hq | ⟨x, hx, hxq, hxc⟩)
        · exact Or.inl hq
        · exact Or.inr ⟨x, Or.inr hx, hxq, hxc⟩
      · rintro (hq | ⟨x, (rfl | hx), hxq, hxc⟩)
        · exact Or.inl hq
        · rw [htc] at hxc
          cases hxc
        · exact Or.inr ⟨x, hx, hxq, hxc⟩
    | false =>
      simp only [Bool.false_eq_true, if_false, List.mem_append,
        List.mem_singleton]
      constructor
      · rintro ((hq | hq) | ⟨x, hx, hxq, hxc⟩)
        · exact Or.inl hq
        · exact Or.inr ⟨c, Or.inl rfl, hq.symm, htc⟩
        · exact Or.inr ⟨x, Or.inr hx, hxq, hxc⟩
      · rintro (hq | ⟨x, (rfl | hx), hxq, hxc⟩)
        · exact Or.inl (Or.inl hq)
        · exact Or.inl (Or.inr hxq.symm)
        · exact Or.inr ⟨x, hx, hxq, hxc⟩

theorem processOne_status_preserved (now : Int) (accepted : Nat → Bool)
    (st : DB × List Nat) (c : QueueEntry) (q : Nat) (e' : QueueEntry)
    (h : findEntry (processOne now accepted st c).1.queue q = some e') :
    ∃ e0, findEntry st.1.queue q = some e0
      ∧ (e'.status = e0.status ∨ e'.status = QStatus.cancelled
         ∨ e'.status = QStatus.triggered) := by
  by_cases hq : q = c.id
  · subst hq
    unfold processOne at h
    cases htc : taskIsCompleted st.1.tasks c.task_id with
    | true =>
      simp only [htc, if_true] at h
      rw [findEntry_updateWhere_self st.1.queue c.id
        (fun e => { e with status := QStatus.cancelled }) (fun _ => rfl)] at h
      cases hfind : findEntry st.1.queue c.id with
      | none => rw [hfind] at h; cases h
      | some e0 =>
        rw [hfind] at h
        cases h
        exact ⟨e0, rfl, Or.inr (Or.inl rfl)⟩
    | false =>
      cases hac : accepted c.id with
      | true =>
        simp only [htc, hac, Bool.false_eq_true, if_false, if_true] at h
        rw [findEntry_updateWhere_self st.1.queue c.id
          (fun e => { e with status := QStatus.triggered,
                             last_attempt_at := some now }) (fun _ => rfl)] at h
        cases hfind : findEntry st.1.queue c.id with
        | none => rw [hfind] at h; cases h
        | some e0 =>
          rw [hfind] at h
          cases h
          exact ⟨e0, rfl, Or.inr (Or.inr rfl)⟩
      | false =>
        simp only [htc, hac, Bool.false_eq_true, if_false] at h
        rw [findEntry_updateWhere_self st.1.queue c.id
          (fun e => { e with last_attempt_at := some now }) (fun _ => rfl)] at h
        cases hfind : findEntry st.1.queue c.id with
        | none => rw [hfind] at h; cases h
        | some e0 =>
          rw [hfind] at h
          cases h
          exact ⟨e0, rfl, Or.inl rfl⟩
  · rw [processOne_findEntry_ne now accepted st c q hq] at h
    exact ⟨e', h, Or.inl rfl⟩

theorem foldl_status_preserved (now : Int) (accepted : Nat → Bool) :
    ∀ (l : List QueueEntry) (st : DB × List Nat) (q : Nat) (e' : QueueEntry),
      findEntry ((l.foldl (processOne now accepted) st).1.queue) q = some e' →
      ∃ e0, findEntry st.1.queue q = some e0
        ∧ (e'.status = e0.status ∨ e'.status = QStatus.cancelled
           ∨ e'.status = QStatus.triggered) := by
  intro l
  induction l with
  | nil =>
    intro st q e' h
    exact ⟨e', h, Or.inl rfl⟩
  | cons c l ih =>
    intro st q e' h
    rw [List.foldl_cons] at h
    obtain ⟨e1, he1, hrel1⟩ := ih _ q e' h
    obtain ⟨e0, he0, hrel0⟩ := processOne_status_preserved now accepted st c q e1 he1
    refine ⟨e0, he0, ?_⟩
    rcases hrel1 with h1 | h1 | h1
    · rw [h1]
      exact hrel0
    · exact Or.inr (Or.inl h1)
    · exact Or.inr (Or.inr h1)

theorem processPendingChasers_findEntry_selected (db : DB) (now : Int)
    (accepted : Nat → Bool) (c : QueueEntry)
    (hnodup : (db.queue.map (fun e => e.id)).Nodup)
    (hc : c ∈ selectDue db.queue now) :
    findEntry (processPendingChasers db now accepted).1.queue c.id
      = some (if taskIsCompleted db.tasks c.task_id then
                { c with status := QStatus.cancelled }
              else if accepted c.id then
                { c with status := QStatus.triggered, last_attempt_at := some now }
              else { c with last_attempt_at := some now }) := by
  obtain ⟨l1, l2, hsplit⟩ := List.append_of_mem hc
  have hsel := selectDue_ids_nodup db.queue now hnodup
  rw [hsplit, List.map_append, List.map_cons] at hsel
  rcases List.nodup_append.mp hsel with ⟨hn1, hn2, hdisj⟩
  have hl1 : ∀ x ∈ l1, c.id ≠ x.id := by
    intro x hx heq
    apply hdisj ?_ (List.mem_cons_self _ _)
    rw [heq]
    exact List.mem_map_of_mem _ hx
  have hl2 : ∀ x ∈ l2, c.id ≠ x.id := by
    intro x hx heq
    apply (List.nodup_cons.mp hn2).1
    rw [heq]
    exact List.mem_map_of_mem _ hx
  have htasks : (l1.foldl (processOne now accepted) (db, ([] : List Nat))).1.tasks
      = db.tasks := foldl_processOne_tasks now accepted l1 (db, [])
  have hfind1 : findEntry
      (l1.foldl (processOne now accepted) (db, ([] : List Nat))).1.queue c.id
      = some c := by
    rw [foldl_findEntry_ne now accepted l1 (db, []) c.id hl1]
    exact findEntry_eq_of_nodup hnodup (mem_selectDue hc).1
  unfold processPendingChasers
  rw [hsplit, List.foldl_append, List.foldl_cons,
    foldl_findEntry_ne now accepted l2 _ c.id hl2]
  generalize hst : List.foldl (processOne now accepted) (db, ([] : List Nat)) l1 = st1
    at htasks hfind1 ⊢
  simp only [processOne]
  rw [htasks]
  cases htc : taskIsCompleted db.tasks c.task_id with
  | true =>
    simp only [htc, if_true]
    rw [findEntry_updateWhere_self _ c.id
      (fun e => { e with status := QStatus.cancelled }) (fun _ => rfl), hfind1]
    rfl
  | false =>
    cases hac : accepted c.id with
    | true =>
      simp only [htc, hac, Bool.false_eq_true, if_false, if_true]
      rw [findEntry_updateWhere_self _ c.id
        (fun e => { e with status := QStatus.triggered,
                           last_attempt_at := some now }) (fun _ => rfl), hfind1]
      rfl
    | false =>
      simp only [htc, hac, Bool.false_eq_true, if_false]
      rw [findEntry_updateWhere_self _ c.id
        (fun e => { e with last_attempt_at := some now }) (fun _ => rfl), hfind1]
      rfl

/-- Claim C5: during a dispatch cycle, a selected queue entry whose owning
task is completed is transitioned to `cancelled` and no external dispatch
call is made for it: the dispatcher never sends a reminder for a completed
task. -/
theorem dispatcher_completed_guard (db : DB) (now : Int) (accepted : Nat → Bool)
    (c : QueueEntry)
    (hnodup : (db.queue.map (fun e => e.id)).Nodup)
    (hc : c ∈ selectDue db.queue now)
    (hdone : taskIsCompleted db.tasks c.task_id = true) :
    findEntry (processPendingChasers db now accepted).1.queue c.id
      = some { c with status := QStatus.cancelled }
    ∧ c.id ∉ (processPendingChasers db now accepted).2 := by
  constructor
  · rw [processPendingChasers_findEntry_selected db now accepted c hnodup hc]
    simp [hdone]
  · intro hmem
    unfold processPendingChasers at hmem
    rw [foldl_dispatched_mem now accepted _ _ c.id] at hmem
    rcases hmem with h | ⟨x, hx, hxid, hxc⟩
    · exact absurd h (List.not_mem_nil _)
    · have hcq := (mem_selectDue hc).1
      have hxq := (mem_selectDue hx).1
      have hxc2 : x = c :=
        eq_of_key_eq_of_nodup (fun e => e.id) hnodup hxq hcq hxid
      rw [hxc2] at hxc
      rw [hdone] at hxc
      cases hxc

/-- Witness for C5: in the example store at time 6, entry 2 (owned by the
completed task 11) is selected, cancelled and not dispatched. -/
theorem dispatcher_completed_guard_witness :
    findEntry (processPendingChasers exDB 6 (fun _ => true)).1.queue 2
      = some { exEntry2 with status := QStatus.cancelled } :=
  (dispatcher_completed_guard exDB 6 (fun _ => true) exEntry2
    (by decide) (by decide) (by decide)).1

/-- Claim C6: when the external dispatch call for a selected queue entry
fails, the entry keeps status `pending` (so it is retried later) with
`last_attempt_at` set to the current time, the tasks table (in particular
`total_chasers_sent`) is unchanged by the whole cycle, and the dispatcher
never moves any entry to `failed`. -/
theorem dispatcher_failure_retry (db : DB) (now : Int) (accepted : Nat → Bool)
    (c : QueueEntry)
    (hnodup : (db.queue.map (fun e => e.id)).Nodup)
    (hc : c ∈ selectDue db.queue now)
    (hnotdone : taskIsCompleted db.tasks c.task_id = false)
    (hfail : accepted c.id = false) :
    findEntry (processPendingChasers db now accepted).1.queue c.id
      = some { c with last_attempt_at := some now }
    ∧ entryStatus (processPendingChasers db now accepted).1.queue c.id
        = some QStatus.pending
    ∧ (processPendingChasers db now accepted).1.tasks = db.tasks
    ∧ (∀ q, entryStatus (processPendingChasers db now accepted).1.queue q
          = some QStatus.failed →
        entryStatus db.queue q = some QStatus.failed) := by
  have hmain : findEntry (processPendingChasers db now accepted).1.queue c.id
      = some { c with last_attempt_at := some now } := by
    rw [processPendingChasers_findEntry_selected db now accepted c hnodup hc]
    simp [hnotdone, hfail]
  refine ⟨hmain, ?_, ?_, ?_⟩
  · unfold entryStatus
    rw [hmain]
    have hp : c.status = QStatus.pending := (mem_selectDue hc).2.1
    simp [hp]
  · exact foldl_processOne_tasks now accepted _ _
  · intro q hq
    unfold entryStatus at hq
    cases hfq : findEntry (processPendingChasers db now accepted).1.queue q with
    | none => rw [hfq] at hq; cases hq
    | some e2 =>
      rw [hfq] at hq
      have he2 : e2.status = QStatus.failed := by
        simpa using hq
      unfold processPendingChasers at hfq
      obtain ⟨e0, he0, hrel⟩ :=
        foldl_status_preserved now accepted (selectDue db.queue now) (db, []) q e2 hfq
      have he0q : findEntry db.queue q = some e0 := he0
      unfold entryStatus
      rw [he0q]
      rcases hrel with h | h | h
      · rw [he2] at h
        simp only [Option.map_some']
        rw [← h]
      · rw [he2] at h
        exact absurd h (by decide)
      · rw [he2] at h
        exact absurd h (by decide)

/-- Witness for C6: in the example store at time 6 with a failing sink,
entry 1 stays pending with its attempt timestamp recorded. -/
theorem dispatcher_failure_retry_witness :
    findEntry (processPendingChasers exDB 6 (fun _ => false)).1.queue 1
      = some { exEntry1 with last_attempt_at := some 6 } :=
  (dispatcher_failure_retry exDB 6 (fun _ => false) exEntry1
    (by decide) (by decide) (by decide) (by decide)).1

/-! ## Status-transition analysis (claim C10) -/

theorem findEntry_updateWhere_any (queue : List QueueEntry)
    (p : QueueEntry → Bool) (f : QueueEntry → QueueEntry)
    (hf : ∀ e, (f e).id = e.id) (q : Nat) :
    findEntry (updateWhere p f queue) q
      = (findEntry queue q).map (fun e => if p e then f e else e) := by
  unfold findEntry updateWhere
  rw [List.find?_map]
  have hcomp : ((fun e : QueueEntry => decide (e.id = q)) ∘
      (fun x => if p x = true then f x else x))
      = fun e => decide (e.id = q) := by
    funext x
    cases hx : p x <;> simp [hx, hf]
  rw [hcomp]

theorem entryStatus_updateWhere (queue : List QueueEntry)
    (p : QueueEntry → Bool) (f : QueueEntry → QueueEntry)
    (hf : ∀ e, (f e).id = e.id) (q : Nat) (s s2 : QStatus)
    (h1 : entryStatus queue q = some s)
    (h2 : entryStatus (updateWhere p f queue) q = some s2) :
    s2 = s ∨ ∃ e, p e = true ∧ e.status = s ∧ (f e).status = s2 := by
  unfold entryStatus at h1 h2
  rw [findEntry_updateWhere_any queue p f hf q] at h2
  cases hfind : findEntry queue q with
  | none =>
    rw [hfind] at h1
    cases h1
  | some e =>
    rw [hfind] at h1 h2
    have hes : e.status = s := by simpa using h1
    cases hp : p e with
    | true =>
      right
      refine ⟨e, hp, hes, ?_⟩
      simp only [Option.map_some', hp, if_true, Option.some.injEq] at h2
      rw [← h2]
    | false =>
      left
      simp only [Option.map_some', hp, Bool.false_eq_true, if_false,
        Option.some.injEq] at h2
      rw [← h2, hes]

def exEntry4 : QueueEntry :=
  { id := 4, task_id := 10, scheduled_at := 1, status := QStatus.cancelled,
    recipient_email := "a@b.c", message_subject := "s4", message_body := "b4",
    escalation_tier := 1, sent_at := none, last_attempt_at := none }

def exDB10 : DB := { tasks := [exTask1], queue := [exEntry4], logs := [] }

/-- Counterexample to claim C10 as stated: `cancelled` is claimed terminal,
but a delivery-success callback for a cancelled entry moves it to `sent`
(the handler updates the status unconditionally, server.js lines 619-625). -/
theorem callback_overrides_terminal_status :
    entryStatus exDB10.queue 4 = some QStatus.cancelled
    ∧ (onDispatchSucceeded exDB10 4 none none 0).toOption.map
        (fun db2 => entryStatus db2.queue 4) = some (some QStatus.sent) := by
  decide

/-- Claim C10 (amended): the dispatch cycle changes an entry status only
along `pending → triggered` (dispatch accepted), `pending → pending`
(dispatch failed) and `pending → cancelled` (owning task completed); task
completion changes a status only along `pending → cancelled`; but the
callback handlers update unconditionally: a success callback moves any
existing entry to `sent` and a failure callback moves any existing entry
to `failed`, whatever its current status, so `sent`, `failed` and
`cancelled` are terminal for the dispatcher and completion but not for
callbacks. -/
theorem status_transition_spec :
    (∀ (db : DB) (now : Int) (accepted : Nat → Bool) (q : Nat) (s s2 : QStatus),
      (db.queue.map (fun e => e.id)).Nodup →
      entryStatus db.queue q = some s →
      entryStatus (processPendingChasers db now accepted).1.queue q = some s2 →
      (s2 = s ∨ (s = QStatus.pending
        ∧ (s2 = QStatus.triggered ∨ s2 = QStatus.cancelled))))
    ∧ (∀ (db : DB) (tid : Nat) (now : Int) (db2 : DB),
        markCompleted db tid now = Except.ok db2 →
        ∀ (q : Nat) (s s2 : QStatus),
          entryStatus db.queue q = some s →
          entryStatus db2.queue q = some s2 →
          (s2 = s ∨ (s = QStatus.pending ∧ s2 = QStatus.cancelled)))
    ∧ (∀ (db : DB) (qid : Nat) (sentAt : Option Int) (execId : Option String)
          (now : Int) (db2 : DB),
        onDispatchSucceeded db qid sentAt execId now = Except.ok db2 →
        ∀ (q : Nat) (s s2 : QStatus),
          entryStatus db.queue q = some s →
          entryStatus db2.queue q = some s2 →
          (s2 = s ∨ s2 = QStatus.sent))
    ∧ (∀ (db : DB) (qid : Nat) (errMsg : Option String) (now : Int) (db2 : DB),
        onDispatchFailed db qid errMsg now = Except.ok db2 →
        ∀ (q : Nat) (s s2 : QStatus),
          entryStatus db.queue q = some s →
          entryStatus db2.queue q = some s2 →
          (s2 = s ∨ s2 = QStatus.failed)) := by
  refine ⟨?_, ?_, ?_, ?_⟩
  · intro db now accepted q s s2 hnodup h1 h2
    by_cases hex : ∃ c ∈ selectDue db.queue now, c.id = q
    · obtain ⟨c, hcsel, hcid⟩ := hex
      subst hcid
      have hfc : findEntry db.queue c.id = some c :=
        findEntry_eq_of_nodup hnodup (mem_selectDue hcsel).1
      have hs : s = c.status := by
        unfold entryStatus at h1
        rw [hfc] at h1
        simpa using h1.symm
      have hpend : c.status = QStatus.pending := (mem_selectDue hcsel).2.1
      unfold entryStatus at h2
      rw [processPendingChasers_findEntry_selected db now accepted c hnodup hcsel]
        at h2
      cases htc : taskIsCompleted db.tasks c.task_id with
      | true =>
        right
        refine ⟨by rw [hs, hpend], Or.inr ?_⟩
        simp only [htc, if_true, Option.map_some', Option.some.injEq] at h2
        rw [← h2]
      | false =>
        cases hac : accepted c.id with
        | true =>
          right
          refine ⟨by rw [hs, hpend], Or.inl ?_⟩
          simp only [htc, hac, Bool.false_eq_true, if_false, if_true,
            Option.map_some', Option.some.injEq] at h2
          rw [← h2]
        | false =>
          left
          simp only [htc, hac, Bool.false_eq_true, if_false,
            Option.map_some', Option.some.injEq] at h2
          rw [← h2, hs]
    · left
      have hne : ∀ c ∈ selectDue db.queue now, q ≠ c.id := by
        intro c hcs heq
        exact hex ⟨c, hcs, heq.symm⟩
      unfold processPendingChasers at h2
      unfold entryStatus at h1 h2
      rw [foldl_findEntry_ne now accepted (selectDue db.queue now) (db, []) q hne]
        at h2
      have h12 : some s = some s2 := by
        rw [← h1, ← h2]
      simpa using h12.symm
  · intro db tid now db2 he q s s2 h1 h2
    unfold markCompleted at he
    cases hget : getTask db.tasks tid with
    | none =>
      rw [hget] at he
      cases he
    | some t =>
      rw [hget] at he
      cases he
      have hsplit2 := entryStatus_updateWhere db.queue
        (fun e => decide (e.task_id = tid) && decide (e.status = QStatus.pending))
        (fun e => { e with status := QStatus.cancelled })
        (fun _ => rfl) q s s2 h1 h2
      rcases hsplit2 with h | ⟨e, hp, hes, hfs⟩
      · exact Or.inl h
      · right
        simp only [Bool.and_eq_true, decide_eq_true_eq] at hp
        exact ⟨by rw [← hes, hp.2], by rw [← hfs]⟩
  · intro db qid sentAt execId now db2 he q s s2 h1 h2
    unfold onDispatchSucceeded at he
    cases hget : findEntry db.queue qid with
    | none =>
      rw [hget] at he
      cases he
    | some e0 =>
      rw [hget] at he
      cases he
      have hsplit2 := entryStatus_updateWhere db.queue
        (fun q2 => decide (q2.id = qid))
        (fun q2 => { q2 with status := QStatus.sent,
                             sent_at := some (sentAt.getD now) })
        (fun _ => rfl) q s s2 h1 h2
      rcases hsplit2 with h | ⟨e, hp, hes, hfs⟩
      · exact Or.inl h
      · exact Or.inr (by rw [← hfs])
  · intro db qid errMsg now db2 he q s s2 h1 h2
    unfold onDispatchFailed at he
    cases hget : findEntry db.queue qid with
    | none =>
      rw [hget] at he
      cases he
    | some e0 =>
      rw [hget] at he
      cases he
      have hsplit2 := entryStatus_updateWhere db.queue
        (fun q2 => decide (q2.id = qid))
        (fun q2 => { q2 with status := QStatus.failed,
                             last_attempt_at := some now })
        (fun _ => rfl) q s s2 h1 h2
      rcases hsplit2 with h | ⟨e, hp, hes, hfs⟩
      · exact Or.inl h
      · exact Or.inr (by rw [← hfs])

/-- Witness for the amended C10: in the example store, entry 1 goes from
`pending` to `triggered` during a successful dispatch cycle, an allowed
edge. -/
theorem status_transition_witness :
    QStatus.triggered = QStatus.pending
    ∨ (QStatus.pending = QStatus.pending
       ∧ (QStatus.triggered = QStatus.triggered
          ∨ QStatus.triggered = QStatus.cancelled)) :=
  status_transition_spec.1 exDB 6 (fun _ => true) 1 QStatus.pending
    QStatus.triggered (by decide) (by decide) (by decide)

end ChaserAgent
